import Mathlib

/-!
Verification of the BECy_stats cold-atom image-statistics code.

The definitions below are a shallow embedding of the Python sources
`hempel.py`, `cloud_distribution.py` and `cloud_image.py`.  Machine floats
are modelled by exact rationals (`ℚ`); where IEEE special values (NaN/Inf)
are the point of a property, a dedicated symbolic value type `FVal` is
used; where a transcendental formula is the point, the reals (`ℝ`) are
used.  Python exceptions are modelled by `Except`/`Option` values.
-/

namespace BECy

/-! ### Definitions: the shallow embedding -/

/-- Python exception kinds raised by the code under study. -/
inductive PyErr where
  | typeError
  | indexError
  | valueError
  | fitError
  | unboundLocalError
  deriving DecidableEq, Repr

/-! ## hempel.py -/
/-- Insert a rational into an ascending-sorted list; helper for the sort
performed inside `numpy.median`. -/
def insertSorted (x : ℚ) : List ℚ → List ℚ
  | [] => [x]
  | y :: ys => if x ≤ y then x :: y :: ys else y :: insertSorted x ys

/-- Ascending insertion sort, modelling the sort `numpy.median` performs. -/
def pySort : List ℚ → List ℚ
  | [] => []
  | x :: xs => insertSorted x (pySort xs)

/-- Embeds `numpy.median`: middle element of the sorted data for odd length,
mean of the two middle elements for even length.  (The empty case, where
numpy produces NaN, is excluded by hypotheses wherever it matters.) -/
def npMedian (l : List ℚ) : ℚ :=
  let s := pySort l
  let n := l.length
  if n % 2 = 1 then s.getD (n / 2) 0
  else (s.getD (n / 2 - 1) 0 + s.getD (n / 2) 0) / 2

/-- The loop of `hempel_filter` (hempel.py lines 10-15): keep an item and
its index exactly when `|item - median| < cutoff`. -/
def hempelLoop (median cutoff : ℚ) : ℕ → List ℚ → List ℚ × List ℕ
  | _, [] => ([], [])
  | i, x :: xs =>
    let rest := hempelLoop median cutoff (i + 1) xs
    if |x - median| < cutoff then (x :: rest.1, i :: rest.2) else rest

/-- Embeds `hempel.hempel_filter(list)` (hempel.py lines 5-17): median, absolute
deviations, MADM, hardcoded cutoff `3 * madm`, then the filtering loop.
Returns the kept values and the kept indices.  Note the function takes
exactly one parameter. -/
def hempel_filter (l : List ℚ) : List ℚ × List ℕ :=
  let median := npMedian l
  let adm := l.map (fun x => |x - median|)
  let madm := npMedian adm
  let cutoff := 3 * madm
  hempelLoop median cutoff 0 l

/-- A Python value that can appear in an argument tuple of a call to
`hempel_filter` in this code base. -/
inductive PyVal where
  | qlist : List ℚ → PyVal
  | num : ℚ → PyVal
  deriving DecidableEq, Repr

/-- Calling the one-parameter function `hempel.hempel_filter` with an
argument tuple.  The only well-typed call is a single list argument;
a call with any other number of arguments raises
`TypeError: hempel_filter() takes exactly 1 argument`. -/
def hempel_filter_call (args : List PyVal) : Except PyErr (List ℚ × List ℕ) :=
  match args with
  | [PyVal.qlist l] => .ok (hempel_filter l)
  | _ => .error .typeError

/-! ## cloud_distribution.py : outlier removal state -/
/-- The mutable state of a `CloudDistribution` that outlier removal
touches: the `dists` dictionary (metric name → value sequence) and the
`outliers` dictionary (metric name → flagged index list). -/
structure DState where
  dists : List (String × List ℚ)
  outliers : List (String × List ℕ)
  deriving DecidableEq, Repr

/-- Python dict assignment `d[k] = v`: replace the binding if the key is
present, else append it. -/
def dictSet {α : Type} (kvs : List (String × α)) (k : String) (v : α) :
    List (String × α) :=
  match kvs with
  | [] => [(k, v)]
  | (k', v') :: rest =>
    if k' = k then (k, v) :: rest else (k', v') :: dictSet rest k v

/-- Embeds `CloudDistribution.find_outliers` (cloud_distribution.py lines
252-256): `_, bad_indices = hempel.hempel_filter(self.dists[var], nMADM)`
— a two-argument call of the one-argument `hempel_filter` — then
`self.outliers[var] = bad_indices`. -/
def find_outliers (s : DState) (var : String) (nMADM : ℚ) :
    Except PyErr DState :=
  match hempel_filter_call
      [PyVal.qlist ((s.dists.lookup var).getD []), PyVal.num nMADM] with
  | .error e => .error e
  | .ok (_, bad_indices) =>
    .ok { s with outliers := dictSet s.outliers var bad_indices }

/-- The list comprehension of `remove_outliers` (line 268):
`[j for i, j in enumerate(list) if i not in bad_indices]`, with `i`
starting from the given counter. -/
def pyFilterNotIn (bad : List ℕ) : ℕ → List ℚ → List ℚ
  | _, [] => []
  | i, x :: xs =>
    if bad.contains i then pyFilterNotIn bad (i + 1) xs
    else x :: pyFilterNotIn bad (i + 1) xs

/-- Embeds `CloudDistribution.does_var_exist` restricted to the in-memory check
`var in self.dists.keys()`.  (The lazy `values()` build loads image files
from disk, which is outside this embedding; it is treated as the failing
branch, which prints `Invalid Variable` and returns `False`.) -/
def does_var_exist (s : DState) (var : String) : Bool :=
  (s.dists.lookup var).isSome

/-- Embeds `CloudDistribution.remove_outliers(var, nMADM=4)`, whose
threshold parameter defaults to 4 (cloud_distribution.py
lines 258-270).  Returns the post-call state together with the exception,
if one was raised (an exception escapes before any distribution is
mutated). -/
def remove_outliers (s : DState) (var : String) (nMADM : ℚ) :
    DState × Option PyErr :=
  if ¬ does_var_exist s var then (s, none)
  else
    let step : Except PyErr DState :=
      if (s.outliers.lookup var).isSome then .ok s
      else find_outliers s var nMADM
    match step with
    | .error e => (s, some e)
    | .ok s1 =>
      let bad := (s1.outliers.lookup var).getD []
      ({ s1 with
          dists := s1.dists.map (fun kv => (kv.1, pyFilterNotIn bad 0 kv.2)) },
        none)

/-- All value sequences held by a distribution set have equal length. -/
def eqLens (dists : List (String × List ℚ)) : Prop :=
  ∀ p ∈ dists, ∀ q ∈ dists, p.2.length = q.2.length

instance (dists : List (String × List ℚ)) : Decidable (eqLens dists) := by
  unfold eqLens; infer_instance

/-! ## cloud_distribution.py : temperature_groups -/
/-- The loop of `CloudDistribution.temperature_groups`
(cloud_distribution.py lines 193-202): walk the tof sequence carrying the
index counter, the previous tof (`last_TOF`), the group under
construction (`tempseq`) and the completed groups (`seqs`); when the
current tof drops below the previous one, close the current group and
start a new one; at the end append the open group. -/
def tgLoop : List ℚ → ℕ → ℚ → List ℕ → List (List ℕ) → List (List ℕ)
  | [], _, _, tempseq, seqs => seqs ++ [tempseq]
  | t :: rest, idx, last, tempseq, seqs =>
    if t < last then tgLoop rest (idx + 1) t [idx] (seqs ++ [tempseq])
    else tgLoop rest (idx + 1) t (tempseq ++ [idx]) seqs

/-- Embeds `CloudDistribution.temperature_groups` (lines 187-203), with
`last_TOF` initialised to `-1` ("All valid TOFs are larger than this"). -/
def temperature_groups (tof : List ℚ) : List (List ℕ) :=
  tgLoop tof 0 (-1) [] []

/-- The spec's boundary rule in recursive form: walking the tail of the
tof sequence with the previous tof at hand, index `i` is a break exactly
when its tof is strictly less than the immediately preceding tof. -/
def specBreaksAux : ℚ → ℕ → List ℚ → List ℕ
  | _, _, [] => []
  | prev, i, t :: r =>
    if t < prev then i :: specBreaksAux t (i + 1) r
    else specBreaksAux t (i + 1) r

/-- Written from the spec sentence: the set of indices at which a new
group begins (besides index 0) is exactly the set of positions whose tof
is strictly less than the immediately preceding tof. -/
def specBreaks : List ℚ → List ℕ
  | [] => []
  | t :: r => specBreaksAux t 1 r

/-! ## cloud_distribution.py : double-Gaussian derived parameters -/
/-- Python indexing `l[i]` on a coefficient sequence: the value at `i`,
or `IndexError` when out of range. -/
def pyGet (l : List ℚ) (i : ℕ) : Except PyErr ℚ :=
  if h : i < l.length then .ok (l.get ⟨i, h⟩) else .error .indexError

/-- Embeds `CloudDistribution.calc_double_gaussian_params(coef, key)`
(cloud_distribution.py lines 605-620): the two peak centers sit in
coefficient slots 2 and 3 and the two widths in slots 4 and 5;
`d_peaks = np.abs(coef[2]-coef[3])`, `position_1 = np.min(coef[2:4])`,
`position_2 = np.max(coef[2:4])`, `sigma_1 = coef[4]`,
`sigma_2 = coef[5]`; an unknown key prints a warning and falls through
returning `None`.  (`np.min`/`np.max` of an empty slice raise
`ValueError`; a slice out of range is clamped.) -/
def calc_double_gaussian_params (coef : List ℚ) (key : String) :
    Except PyErr (Option ℚ) :=
  if key = "d_peaks" then do
    let c2 ← pyGet coef 2
    let c3 ← pyGet coef 3
    return some |c2 - c3|
  else if key = "position_1" then
    match (coef.drop 2).take 2 with
    | [] => .error .valueError
    | q :: qs => .ok (some (qs.foldl min q))
  else if key = "position_2" then
    match (coef.drop 2).take 2 with
    | [] => .error .valueError
    | q :: qs => .ok (some (qs.foldl max q))
  else if key = "sigma_1" then do
    let c4 ← pyGet coef 4
    return some c4
  else if key = "sigma_2" then do
    let c5 ← pyGet coef 5
    return some c5
  else .ok none

/-- Exchanging which peak's parameters come first in a double-Gaussian
coefficient vector (amplitudes in slots 0 and 1, centers in slots 2 and
3, widths in slots 4 and 5). -/
def swapPeaksCoef (c : List ℚ) : List ℚ :=
  [c.getD 1 0, c.getD 0 0, c.getD 3 0, c.getD 2 0, c.getD 5 0, c.getD 4 0]

/-! ## cloud_image.py : Gaussian fit parameter extraction -/
/-- A 2-D array of (finite) float samples. -/
abbrev Mat := List (List ℚ)

/-- Embeds `np.sum(m)`: sum of all entries. -/
def matSum (m : Mat) : ℚ := (m.map List.sum).sum

/-- Embeds `np.sum(m, 0)`: column sums of a rectangular array; the result has
one entry per column. -/
def sumAxis0 (m : Mat) : List ℚ :=
  (List.range m.headI.length).map (fun j => (m.map (fun row => row.getD j 0)).sum)

/-- Embeds `np.sum(m, 1)`: row sums. -/
def sumAxis1 (m : Mat) : List ℚ := m.map List.sum

/-- Elementwise difference of two same-shape arrays. -/
def matSub (a b : Mat) : Mat :=
  List.zipWith (List.zipWith (fun x y => x - y)) a b

/-- The data of one `CloudImage` as seen by
`get_gaussian_fit_params`: the OD map, the outcomes of the two 1-D
Gaussian fits, the full light/dark planes (for `light_counts`) and the
calibration scalars.  The fit functions `fit_gaussian_1d` /
`fit_gaussian_1d_noline` live in `fit_functions.py` (a collaborator not
under study); a fit outcome is the returned coefficient list, or `none`
when the fit raised (the code wraps each fit in a bare `except`). -/
structure CloudImageData where
  od : Mat
  fitX : Option (List ℚ)
  fitZ : Option (List ℚ)
  light_image : Mat
  dark_image : Mat
  A : ℚ
  s_lambda : ℚ
  pixel_size : ℚ
  magnification : ℚ
  trunc_win_x0 : ℚ
  trunc_win_y0 : ℚ
  deriving DecidableEq, Repr

/-- The options of `get_gaussian_fit_params` that reach the fit handling
and the returned bundle (`fluc_cor_switch` only selects the OD map,
abstracted in `CloudImageData.od`; `debug_flag` only plots). -/
structure GaussOpts where
  linear_bias_switch : Bool
  offset_switch : Bool
  fit_axis : ℕ
  pixel_units : Bool
  deriving DecidableEq, Repr

/-- The per-image metric bundle returned by `get_gaussian_fit_params`
(cloud_image.py lines 413-437; the `timestamp` entry, which stores a
bound method object, is omitted). -/
structure GaussParams where
  atom_number : ℚ
  position_x : ℚ
  position_z : ℚ
  width_x : ℚ
  width_z : ℚ
  light_counts : ℚ
  deriving DecidableEq, Repr

/-- Embeds `CloudImage.distconv(pixnum, axis)` (cloud_image.py lines 444-451),
with `image_angle_corr = 1` as set in `__init__`. -/
def distconv (img : CloudImageData) (pixnum : ℚ) (axis : ℕ) : ℚ :=
  if axis = 0 then
    (pixnum + img.trunc_win_x0) * img.pixel_size * 1 / img.magnification
  else (pixnum + img.trunc_win_y0) * img.pixel_size / img.magnification

/-- One axis's fit block (cloud_image.py lines 336-356): on success with
the linear-bias model the slope is read from coefficient slot 4 inside
the same `try`; any exception in the block is swallowed and the
coefficients degrade to the `[0, 0, 0]` placeholder with the slope
variable left unassigned (`none`). -/
def fitAxisResult (lin : Bool) (f : Option (List ℚ)) : List ℚ × Option ℚ :=
  match f with
  | none => ([0, 0, 0], none)
  | some c =>
    if lin then
      match pyGet c 4 with
      | .ok s => (c, some s)
      | .error _ => ([0, 0, 0], none)
    else (c, some 0)

/-- Embeds `CloudImage.get_gaussian_fit_params` (cloud_image.py lines 315-437)
after the OD map and the two fit outcomes are in hand: select the
designated fit axis's offset and slope (for `fit_axis == 1` the offset
read is guarded by `except IndexError`, for `fit_axis == 0` it is not,
so an `IndexError` on the `[0, 0, 0]` placeholder propagates), compute
the atom number, and assemble the returned bundle. -/
def get_gaussian_fit_params (img : CloudImageData) (o : GaussOpts) :
    Except PyErr GaussParams :=
  let imgcut_x := sumAxis0 img.od
  let imgcut_z := sumAxis1 img.od
  let xr := fitAxisResult o.linear_bias_switch img.fitX
  let zr := fitAxisResult o.linear_bias_switch img.fitZ
  let coefs_x := xr.1
  let slope_x := xr.2
  let coefs_z := zr.1
  let slope_z := zr.2
  let axisSel : Except PyErr (ℚ × ℚ × ℕ) :=
    if o.fit_axis = 1 then
      match pyGet coefs_z 3 with
      | .error _ => .ok (0, 0, imgcut_z.length)
      | .ok off =>
        match slope_z with
        | some s => .ok (off, s, imgcut_z.length)
        | none => .error .unboundLocalError
    else if o.fit_axis = 0 then
      match pyGet coefs_x 3 with
      | .error e => .error e
      | .ok off =>
        match slope_x with
        | some s => .ok (off, s, imgcut_x.length)
        | none => .error .unboundLocalError
    else .error .unboundLocalError
  match axisSel with
  | .error e => .error e
  | .ok (off, slope, axis_len) =>
    let atom_number :=
      if o.offset_switch then
        img.A / img.s_lambda *
          (matSum img.od - (1 / 2) * slope * (axis_len : ℚ) ^ 2 -
            off * (axis_len : ℚ))
      else img.A / img.s_lambda * matSum img.od
    do
      let cx1 ← pyGet coefs_x 1
      let cz1 ← pyGet coefs_z 1
      let cx2 ← pyGet coefs_x 2
      let cz2 ← pyGet coefs_z 2
      let lc := matSum (matSub img.light_image img.dark_image)
      if o.pixel_units then
        return ⟨atom_number, cx1 + img.trunc_win_x0, cz1, cx2, cz2, lc⟩
      else
        return ⟨atom_number, distconv img cx1 0, distconv img cz1 1,
          cx2 * img.pixel_size * 1 / img.magnification,
          cz2 * img.pixel_size / img.magnification, lc⟩

/-- Embeds `CloudDistribution.initialize_gaussian_params` (cloud_distribution.py
lines 128-153) restricted to its failure propagation: per image, a
`FitError` is caught and logged (the image is skipped) while any other
exception propagates and aborts the whole build. -/
def initialize_gaussian_params :
    List CloudImageData → GaussOpts → Except PyErr (List GaussParams)
  | [], _ => .ok []
  | img :: rest, o =>
    match get_gaussian_fit_params img o with
    | .ok p => (initialize_gaussian_params rest o).map (fun ps => p :: ps)
    | .error .fitError => initialize_gaussian_params rest o
    | .error e => .error e

/-- A fit outcome is well-formed: when the fit succeeds it returns the
full coefficient vector of its model (5 coefficients with the linear
bias term, 4 without), as `scipy.optimize.curve_fit` does. -/
def coefLenOk (lin : Bool) (f : Option (List ℚ)) : Bool :=
  match f with
  | none => true
  | some c => c.length == if lin then 5 else 4

/-- Inputs for the C6 counterexample: an OD map summing to 2 and a pixel
area to cross-section ratio `A / s_lambda = 3`, with both fits returning
all-zero coefficients. -/
def c6imgX : CloudImageData :=
  ⟨[[2]], some [0, 0, 0, 0, 0], some [0, 0, 0, 0, 0], [[0]], [[0]],
    3, 1, 1, 1, 0, 0⟩

/-- Inputs for the C6 witness: a 2×2 OD map, `A / s_lambda = 2 / 3`,
and two successful 5-coefficient fits. -/
def c6imgW : CloudImageData :=
  ⟨[[1, 2], [3, 4]], some [1, 2, 3, 4, 5], some [5, 4, 3, 2, 1],
    [[0]], [[0]], 2, 3, 1, 1, 0, 0⟩

/-! ## cloud_image.py : optical-density reconstruction with IEEE special
values (`get_od_image`, lines 144-173)

Float samples are finite rationals; the operations below follow IEEE
semantics for the special values NaN and ±Inf.  Signed zeros are not
distinguished (a zero is `+0`): the only divisions by zero arising here
have CCD-count differences as divisors.  The finite value of `-ln q`
(irrational for almost all `q`) is represented through an abstract
finite-part map `φ : ℚ → ℚ`; every theorem quantifies over `φ`, so
nothing depends on its values. -/
/-- A float value: finite, `+inf`, `-inf`, or NaN. -/
inductive FVal where
  | fin : ℚ → FVal
  | pinf : FVal
  | ninf : FVal
  | nan : FVal
  deriving DecidableEq, Repr

namespace FVal

/-- Embeds `np.isinf`. -/
def isInf : FVal → Bool
  | pinf => true
  | ninf => true
  | _ => false

/-- Embeds `np.isnan`. -/
def isNan : FVal → Bool
  | nan => true
  | _ => false

/-- IEEE subtraction. -/
def sub : FVal → FVal → FVal
  | fin a, fin b => fin (a - b)
  | nan, _ => nan
  | _, nan => nan
  | pinf, pinf => nan
  | pinf, _ => pinf
  | ninf, ninf => nan
  | ninf, _ => ninf
  | fin _, pinf => ninf
  | fin _, ninf => pinf

/-- IEEE multiplication (`inf * 0 = nan`). -/
def mul : FVal → FVal → FVal
  | fin a, fin b => fin (a * b)
  | nan, _ => nan
  | _, nan => nan
  | pinf, pinf => pinf
  | pinf, ninf => ninf
  | ninf, pinf => ninf
  | ninf, ninf => pinf
  | pinf, fin b => if b = 0 then nan else if 0 < b then pinf else ninf
  | ninf, fin b => if b = 0 then nan else if 0 < b then ninf else pinf
  | fin a, pinf => if a = 0 then nan else if 0 < a then pinf else ninf
  | fin a, ninf => if a = 0 then nan else if 0 < a then ninf else pinf

/-- IEEE division (`0/0 = nan`, `x/0 = ±inf`, `x/inf = 0`,
`inf/inf = nan`). -/
def div : FVal → FVal → FVal
  | fin a, fin b =>
    if b = 0 then (if a = 0 then nan else if 0 < a then pinf else ninf)
    else fin (a / b)
  | nan, _ => nan
  | _, nan => nan
  | pinf, pinf => nan
  | pinf, ninf => nan
  | ninf, pinf => nan
  | ninf, ninf => nan
  | pinf, fin b => if 0 ≤ b then pinf else ninf
  | ninf, fin b => if 0 ≤ b then ninf else pinf
  | fin _, pinf => fin 0
  | fin _, ninf => fin 0

/-- Embeds `-np.log` classified on IEEE values: NaN for a negative argument (or
NaN, or `-inf`), `+inf` at zero, `-inf` at `+inf`; on a positive finite
argument the finite result is represented through `φ`. -/
def negLog (φ : ℚ → ℚ) : FVal → FVal
  | nan => nan
  | ninf => nan
  | pinf => ninf
  | fin q => if q < 0 then nan else if q = 0 then pinf else fin (φ q)

/-- Embeds `np.abs`. -/
def vabs : FVal → FVal
  | fin q => fin |q|
  | pinf => pinf
  | ninf => pinf
  | nan => nan

end FVal

/-- A 2-D array of float values. -/
abbrev FMat := List (List FVal)

/-- A `RawFrame` as consumed by `get_od_image`: the three full planes
(finite samples) plus the truncation and fluctuation windows
`(x1, x2, y1, y2)`. -/
structure ODFrame where
  atom : Mat
  light : Mat
  dark : Mat
  trunc_x1 : ℕ
  trunc_x2 : ℕ
  trunc_y1 : ℕ
  trunc_y2 : ℕ
  fluc_x1 : ℕ
  fluc_x2 : ℕ
  fluc_y1 : ℕ
  fluc_y2 : ℕ
  deriving DecidableEq, Repr

/-- The numpy slice `m[y1:y2, x1:x2]` (out-of-range bounds clamp). -/
def slice2d (m : Mat) (x1 x2 y1 y2 : ℕ) : Mat :=
  ((m.drop y1).take (y2 - y1)).map (fun row => (row.drop x1).take (x2 - x1))

/-- Embeds `np.mean(np.mean(m[y1:y2, x1:x2]))`: the grand mean of a window (the
inner `np.mean` of a 2-D array is already the grand mean); the mean of
an empty slice is NaN. -/
def sliceMean (m : Mat) (x1 x2 y1 y2 : ℕ) : FVal :=
  let entries := (slice2d m x1 x2 y1 y2).flatten
  if entries.length = 0 then FVal.nan
  else FVal.fin (entries.sum / entries.length)

/-- Embeds `CloudImage.set_fluc_corr` (cloud_image.py lines 107-116):
`fluc_cor = mean(atom window) / mean(light window)`. -/
def set_fluc_corr (f : ODFrame) : FVal :=
  FVal.div (sliceMean f.atom f.fluc_x1 f.fluc_x2 f.fluc_y1 f.fluc_y2)
    (sliceMean f.light f.fluc_x1 f.fluc_x2 f.fluc_y1 f.fluc_y2)

/-- Elementwise combination of three same-shape planes. -/
def matZip3 (g : ℚ → ℚ → ℚ → FVal) (a l d : Mat) : FMat :=
  List.zipWith3 (fun ra rl rd => List.zipWith3 g ra rl rd) a l d

/-- Embeds `get_od_image` before the NaN/Inf cleanup (cloud_image.py lines
151-170): choose full or truncated planes, form
`-log((a - d) / (fluc_cor * l - d))` (or without the `fluc_cor` factor),
and optionally take the absolute value. -/
def odPre (φ : ℚ → ℚ) (f : ODFrame)
    (fluc_cor_switch trunc_switch abs_od : Bool) : FMat :=
  let a := if trunc_switch then
    slice2d f.atom f.trunc_x1 f.trunc_x2 f.trunc_y1 f.trunc_y2 else f.atom
  let l := if trunc_switch then
    slice2d f.light f.trunc_x1 f.trunc_x2 f.trunc_y1 f.trunc_y2 else f.light
  let d := if trunc_switch then
    slice2d f.dark f.trunc_x1 f.trunc_x2 f.trunc_y1 f.trunc_y2 else f.dark
  let fluc_cor := set_fluc_corr f
  let od :=
    if fluc_cor_switch then
      matZip3 (fun av lv dv =>
        FVal.negLog φ (FVal.div (FVal.sub (.fin av) (.fin dv))
          (FVal.sub (FVal.mul fluc_cor (.fin lv)) (.fin dv)))) a l d
    else
      matZip3 (fun av lv dv =>
        FVal.negLog φ (FVal.div (FVal.sub (.fin av) (.fin dv))
          (FVal.sub (.fin lv) (.fin dv)))) a l d
  if abs_od then od.map (List.map FVal.vabs) else od

/-- Embeds `od_image[np.isnan(od_image)] = 0` pointwise. -/
def nanZeroVal (v : FVal) : FVal := if v.isNan then FVal.fin 0 else v

/-- Embeds `od_image[np.isnan(od_image)] = 0` (line 171). -/
def nanZero (m : FMat) : FMat := m.map (List.map nanZeroVal)

/-- The finite entries of a map (after line 171 these are exactly the
entries `~np.isinf` selects). -/
def finEntries (m : FMat) : List ℚ :=
  m.flatten.filterMap (fun v => match v with
    | FVal.fin q => some q
    | _ => none)

/-- Replace an infinite entry by the given finite value. -/
def infClamp (mx : ℚ) (v : FVal) : FVal :=
  if v.isInf then FVal.fin mx else v

/-- Lines 171-172 of `get_od_image`: NaNs become 0, then every infinite
entry is replaced by `od_image[~np.isinf(od_image)].max()`.  When the
non-infinite selection is empty, `.max()` raises `ValueError` and no map
is returned (`none`). -/
def odCleanup (m : FMat) : Option FMat :=
  let m1 := nanZero m
  match finEntries m1 with
  | [] => none
  | q :: qs => some (m1.map (List.map (infClamp (qs.foldl max q))))

/-- Embeds `CloudImage.get_od_image` (cloud_image.py lines 144-173). -/
def get_od_image (φ : ℚ → ℚ) (f : ODFrame)
    (fluc_cor_switch trunc_switch abs_od : Bool) : Option FMat :=
  odCleanup (odPre φ f fluc_cor_switch trunc_switch abs_od)

/-- An arbitrary finite-part oracle for `-ln` used by the C4 witness. -/
def c4phi : ℚ → ℚ := fun _ => 0

/-- The frame of the C4 witness: one pixel with `atom = 1`, `light = 3`,
`dark = 0`, both windows covering the single pixel. -/
def c4frameW : ODFrame := ⟨[[1]], [[3]], [[0]], 0, 1, 0, 1, 0, 1, 0, 1⟩

/-! ## cloud_image.py : the OD formula over the reals (C5)

For the formula itself (as opposed to the IEEE special values, treated
above) the samples are modelled as real numbers and `np.log` as
`Real.log`. -/
/-- A 2-D array of real samples. -/
abbrev RMat := List (List ℝ)

/-- Embeds `np.mean` of a window's entries on the real model. -/
noncomputable def realMean (l : List ℝ) : ℝ := l.sum / l.length

/-- Embeds `set_fluc_corr`: the ratio of the mean atom-window intensity to the
mean light-window intensity (cloud_image.py lines 107-116). -/
noncomputable def fluc_cor_real (atomWin lightWin : List ℝ) : ℝ :=
  realMean atomWin / realMean lightWin

/-- The two branches of `get_od_image` exactly as written in the code
(cloud_image.py lines 159-168): with fluctuation correction,
`-log((a - d) / (fluc_cor * l - d))`; without, `-log((a - d) / (l - d))`. -/
noncomputable def od_formula_code (fs : Bool) (fluc_cor : ℝ)
    (a l d : RMat) : RMat :=
  if fs then
    List.zipWith3 (fun ra rl rd => List.zipWith3
      (fun av lv dv => -Real.log ((av - dv) / (fluc_cor * lv - dv))) ra rl rd)
      a l d
  else
    List.zipWith3 (fun ra rl rd => List.zipWith3
      (fun av lv dv => -Real.log ((av - dv) / (lv - dv))) ra rl rd) a l d

/-- Written from the spec's words, for comparison:
`OD = -ln((atom - dark) / (correction_factor * light - dark))`
elementwise. -/
noncomputable def od_formula_spec (corr : ℝ) (a l d : RMat) : RMat :=
  List.zipWith3 (fun ra rl rd => List.zipWith3
    (fun av lv dv => -Real.log ((av - dv) / (corr * lv - dv))) ra rl rd) a l d

/-- Written from the spec's words, for comparison: the correction factor
is 1.0 when fluctuation correction is disabled, else the ratio of the
mean atom-plane intensity to the mean light-plane intensity over the
fluctuation window. -/
noncomputable def correction_factor_spec (enabled : Bool)
    (atomWin lightWin : List ℝ) : ℝ :=
  if enabled then fluc_cor_real atomWin lightWin else 1

/-! ## cloud_distribution.py : the lifetime regression report (C9)

`CloudDistribution.lifetime` calls `scipy.optimize.curve_fit`, an
iterative nonlinear least-squares solver that is a collaborator outside
this embedding; its outputs `popt` (parameter estimates for
`lifetime_func`) and `pcov` (covariance matrix) are quantified over
below.  What the method then reports (lines 445-446) is
`1 / popt[1]` as the lifetime and `sqrt(pcov[1][1])` as sigma. -/
/-- Embeds `lifetime_func(x, a, b, c) = a * exp(-b * x) + c`
(cloud_distribution.py lines 46-47), the model of the lifetime fit. -/
noncomputable def lifetime_func (x a b c : ℝ) : ℝ := a * Real.exp (-b * x) + c

/-- The pair printed by `CloudDistribution.lifetime` (lines 445-446):
`Lifetime: 1/popt[1]` and `sigma: sqrt(pcov[1][1])`. -/
noncomputable def lifetime_reported (popt : Fin 3 → ℝ)
    (pcov : Fin 3 → Fin 3 → ℝ) : ℝ × ℝ :=
  (1 / popt 1, Real.sqrt (pcov 1 1))

/-- Written from the spec's words, for comparison: the propagated
one-sigma uncertainty of the lifetime `1/b` is `sigma_b / b^2`. -/
noncomputable def lifetime_sigma_spec (popt : Fin 3 → ℝ)
    (pcov : Fin 3 → Fin 3 → ℝ) : ℝ :=
  Real.sqrt (pcov 1 1) / (popt 1) ^ 2

/-- Fit estimates for the C9 counterexample: decay rate `b = 2`. -/
def c9popt : Fin 3 → ℝ := fun _ => 2

/-- Fit covariance for the C9 counterexample: `pcov[1][1] = 4`. -/
def c9pcov : Fin 3 → Fin 3 → ℝ := fun _ _ => 4

/-! ### Helper lemmas and claim theorems -/

/-! ## Helper lemmas on lists -/
lemma hempelLoop_cutoff_nonpos (m c : ℚ) (hc : c ≤ 0) :
    ∀ (i : ℕ) (l : List ℚ), hempelLoop m c i l = ([], []) := by
  intro i l
  induction l generalizing i with
  | nil => rfl
  | cons x xs ih =>
    have hno : ¬ |x - m| < c :=
      fun hlt => (abs_nonneg (x - m)).not_lt (lt_of_lt_of_le hlt hc)
    simp [hempelLoop, ih, hno]

lemma map_getD_range (l : List ℚ) :
    (List.range l.length).map (fun i => l.getD i 0) = l := by
  induction l with
  | nil => rfl
  | cons x xs ih =>
    rw [List.length_cons, List.range_succ_eq_map, List.map_cons, List.map_map]
    refine congrArg (x :: ·) ?_
    calc (List.range xs.length).map ((fun i => (x :: xs).getD i 0) ∘ Nat.succ)
        = (List.range xs.length).map (fun i => xs.getD i 0) :=
          List.map_congr_left (fun i _ => rfl)
      _ = xs := ih

lemma pyFilterNotIn_eq (bad : List ℕ) (l : List ℚ) :
    ∀ k, pyFilterNotIn bad k l =
      ((List.range' k l.length).filter (fun i => !bad.contains i)).map
        (fun i => l.getD (i - k) 0) := by
  induction l with
  | nil => intro k; rfl
  | cons x xs ih =>
    intro k
    rw [List.length_cons, List.range'_succ]
    by_cases hk : k ∈ bad
    · have hkc : bad.contains k = true := by simpa using hk
      rw [pyFilterNotIn, if_pos hkc, ih (k + 1)]
      rw [List.filter_cons_of_neg (by simpa using hk)]
      refine List.map_congr_left ?_
      intro i hi
      have hik : k + 1 ≤ i := (List.mem_range'_1.mp (List.mem_of_mem_filter hi)).1
      have : i - k = (i - (k + 1)) + 1 := by omega
      rw [this, List.getD_cons_succ]
    · have hkc : bad.contains k = false := by simpa using hk
      rw [pyFilterNotIn, if_neg (by simpa using hk), ih (k + 1)]
      rw [List.filter_cons_of_pos (by simpa using hk)]
      rw [List.map_cons, Nat.sub_self, List.getD_cons_zero]
      congr 1
      refine List.map_congr_left ?_
      intro i hi
      have hik : k + 1 ≤ i := (List.mem_range'_1.mp (List.mem_of_mem_filter hi)).1
      have : i - k = (i - (k + 1)) + 1 := by omega
      rw [this, List.getD_cons_succ]

lemma forall₂_id_keep (dists : List (String × List ℚ)) (L : ℕ)
    (hlen : ∀ p ∈ dists, p.2.length = L) :
    List.Forall₂
      (fun p q => q.1 = p.1 ∧ q.2 = (List.range L).map (fun i => p.2.getD i 0))
      dists dists := by
  rw [List.forall₂_same]
  intro p hp
  exact ⟨rfl, by rw [← hlen p hp, map_getD_range]⟩

/-! ## Claim theorems: outlier machinery -/
/-- C10: for every nonempty input list whose median absolute deviation
about the median is zero, `hempel_filter` keeps nothing: the strict test
`|x - median| < 3 * MADM = 0` fails at every index (values equal to the
median included), so the filtered list and the kept-index list are both
empty — every index is flagged as an outlier. -/
theorem hempel_filter_all_flagged_of_madm_zero (l : List ℚ) (hne : l ≠ [])
    (hmadm : npMedian (l.map fun x => |x - npMedian l|) = 0) :
    hempel_filter l = ([], []) := by
  show hempelLoop (npMedian l)
      (3 * npMedian (l.map fun x => |x - npMedian l|)) 0 l = ([], [])
  rw [hmadm, mul_zero]
  exact hempelLoop_cutoff_nonpos _ _ le_rfl 0 l

/-- Witness for C10 at the constant list `[5, 5, 5]` (whose MADM is 0). -/
theorem hempel_filter_all_flagged_of_madm_zero_witness :
    ([(5 : ℚ), 5, 5] ≠ []) ∧
    npMedian ([(5 : ℚ), 5, 5].map fun x => |x - npMedian [(5 : ℚ), 5, 5]|) = 0 ∧
    hempel_filter [(5 : ℚ), 5, 5] = ([], []) := by
  have h1 : npMedian [(5 : ℚ), 5, 5] = 5 := by
    norm_num [npMedian, pySort, insertSorted, List.getD_cons_succ,
      List.getD_cons_zero]
  have h2 :
      npMedian ([(5 : ℚ), 5, 5].map fun x => |x - npMedian [(5 : ℚ), 5, 5]|) = 0 := by
    rw [h1]
    norm_num [npMedian, pySort, insertSorted, sub_self, abs_zero,
      List.getD_cons_succ, List.getD_cons_zero]
  exact ⟨by decide, h2, hempel_filter_all_flagged_of_madm_zero _ (by decide) h2⟩

/-- C1 (code bug): on a distribution that holds the metric,
`remove_outliers` never runs the Hempel/MADM filter: `find_outliers`
calls `hempel.hempel_filter(self.dists[var], nMADM)` with two arguments,
but `hempel_filter` takes exactly one, so the call raises `TypeError`
before any distribution is touched.  The second conjunct checks the
intact part of the claim: a metric that does not exist (and cannot be
built) makes the call a no-op. -/
theorem remove_outliers_raises_typeerror :
    remove_outliers ⟨[("atom_number", [1, 2, 3])], []⟩ "atom_number" 3 =
      (⟨[("atom_number", [1, 2, 3])], []⟩, some PyErr.typeError) ∧
    remove_outliers ⟨[("atom_number", [1, 2, 3])], []⟩ "ghost" 3 =
      (⟨[("atom_number", [1, 2, 3])], []⟩, none) := by
  exact ⟨rfl, rfl⟩

/-- C3: any `remove_outliers` call on a state whose metric sequences all
have equal length leaves equal-length, index-aligned sequences: there is
a single strictly increasing list `keep` of retained original indices
such that every metric's post-call sequence is exactly its pre-call
sequence sampled at `keep`.  (This covers all three completion modes of
the call: metric absent → unchanged; outlier set not yet computed →
`TypeError` raised before mutation, state unchanged; outlier set present
→ the same index set is deleted from every sequence.) -/
theorem remove_outliers_alignment (s : DState) (var : String) (n : ℚ)
    (h : eqLens s.dists) :
    ∃ keep : List ℕ, keep.Pairwise (· < ·) ∧
      List.Forall₂
        (fun p q => q.1 = p.1 ∧ q.2 = keep.map (fun i => p.2.getD i 0))
        s.dists (remove_outliers s var n).1.dists ∧
      eqLens (remove_outliers s var n).1.dists := by
  set L := (s.dists.headI).2.length with hL
  have hlen : ∀ p ∈ s.dists, p.2.length = L := by
    intro p hp
    cases hd : s.dists with
    | nil => rw [hd] at hp; exact absurd hp (List.not_mem_nil p)
    | cons a as =>
      have ha : a ∈ s.dists := by rw [hd]; exact List.mem_cons_self a as
      have := h p hp a ha
      rw [hL, hd]
      simpa using this
  by_cases hv : does_var_exist s var
  · by_cases ho : (s.outliers.lookup var).isSome
    · -- the deletion loop runs with the stored index set
      have hres : remove_outliers s var n =
          ({ s with dists := s.dists.map (fun kv =>
              (kv.1, pyFilterNotIn ((s.outliers.lookup var).getD []) 0 kv.2)) },
            none) := by
        simp [remove_outliers, hv, ho]
      set bad := (s.outliers.lookup var).getD [] with hbad
      refine ⟨(List.range L).filter (fun i => !bad.contains i), ?_, ?_, ?_⟩
      · exact (List.pairwise_lt_range L).sublist (List.filter_sublist _)
      · rw [hres]
        simp only
        rw [List.forall₂_map_right_iff, List.forall₂_same]
        intro kv hkv
        refine ⟨rfl, ?_⟩
        rw [pyFilterNotIn_eq bad kv.2 0, ← List.range_eq_range', hlen kv hkv]
        simp
      · intro p hp q hq
        rw [hres] at hp hq
        simp only [List.mem_map] at hp hq
        obtain ⟨kv, hkv, rfl⟩ := hp
        obtain ⟨kv', hkv', rfl⟩ := hq
        simp only
        rw [pyFilterNotIn_eq bad kv.2 0, pyFilterNotIn_eq bad kv'.2 0,
          hlen kv hkv, hlen kv' hkv']
        simp
    · -- find_outliers raises TypeError before mutating anything
      have hres : remove_outliers s var n = (s, some PyErr.typeError) := by
        simp [remove_outliers, hv, ho, find_outliers, hempel_filter_call]
      refine ⟨List.range L, List.pairwise_lt_range L, ?_, ?_⟩
      · rw [hres]; exact forall₂_id_keep s.dists L hlen
      · rw [hres]; exact h
  · -- the metric does not exist: logged no-op
    have hres : remove_outliers s var n = (s, none) := by
      simp [remove_outliers, hv]
    refine ⟨List.range L, List.pairwise_lt_range L, ?_, ?_⟩
    · rw [hres]; exact forall₂_id_keep s.dists L hlen
    · rw [hres]; exact h

/-- Witness for C3 on a concrete two-metric state with a stored outlier
set for metric `a`. -/
theorem remove_outliers_alignment_witness :
    eqLens (DState.mk [("a", [1, 2]), ("b", [3, 4])] [("a", [0])]).dists ∧
    (∃ keep : List ℕ, keep.Pairwise (· < ·) ∧
      List.Forall₂
        (fun p q => q.1 = p.1 ∧ q.2 = keep.map (fun i => p.2.getD i 0))
        (DState.mk [("a", [1, 2]), ("b", [3, 4])] [("a", [0])]).dists
        (remove_outliers
          (DState.mk [("a", [1, 2]), ("b", [3, 4])] [("a", [0])]) "a" 3).1.dists ∧
      eqLens (remove_outliers
          (DState.mk [("a", [1, 2]), ("b", [3, 4])] [("a", [0])]) "a" 3).1.dists) :=
  ⟨by decide,
    remove_outliers_alignment
      (DState.mk [("a", [1, 2]), ("b", [3, 4])] [("a", [0])]) "a" 3 (by decide)⟩

lemma tgLoop_flatten (rest : List ℚ) :
    ∀ (idx : ℕ) (last : ℚ) (tempseq : List ℕ) (seqs : List (List ℕ)),
      (tgLoop rest idx last tempseq seqs).flatten =
        seqs.flatten ++ tempseq ++ List.range' idx rest.length := by
  induction rest with
  | nil => intro idx last tempseq seqs; simp [tgLoop]
  | cons t r ih =>
    intro idx last tempseq seqs
    by_cases ht : t < last
    · simp [tgLoop, ht, ih, List.range'_succ]
    · simp [tgLoop, ht, ih, List.range'_succ]

lemma tgLoop_ne_nil (rest : List ℚ) :
    ∀ (idx : ℕ) (last : ℚ) (tempseq : List ℕ) (seqs : List (List ℕ)),
      tempseq ≠ [] → (∀ g ∈ seqs, g ≠ []) →
      ∀ g ∈ tgLoop rest idx last tempseq seqs, g ≠ [] := by
  induction rest with
  | nil =>
    intro idx last tempseq seqs htemp hseqs g hg
    rw [tgLoop, List.mem_append] at hg
    rcases hg with hg | hg
    · exact hseqs g hg
    · rw [List.mem_singleton] at hg; subst hg; exact htemp
  | cons t r ih =>
    intro idx last tempseq seqs htemp hseqs g hg
    rw [tgLoop] at hg
    by_cases ht : t < last
    · rw [if_pos ht] at hg
      refine ih (idx + 1) t [idx] (seqs ++ [tempseq]) (by simp) ?_ g hg
      intro g' hg'
      rw [List.mem_append] at hg'
      rcases hg' with hg' | hg'
      · exact hseqs g' hg'
      · rw [List.mem_singleton] at hg'; subst hg'; exact htemp
    · rw [if_neg ht] at hg
      exact ih (idx + 1) t (tempseq ++ [idx]) seqs (by simp) hseqs g hg

lemma tgLoop_heads (rest : List ℚ) :
    ∀ (idx : ℕ) (last : ℚ) (tempseq : List ℕ) (seqs : List (List ℕ)),
      tempseq ≠ [] →
      (tgLoop rest idx last tempseq seqs).filterMap List.head? =
        (seqs ++ [tempseq]).filterMap List.head? ++ specBreaksAux last idx rest := by
  induction rest with
  | nil => intro idx last tempseq seqs _; simp [tgLoop, specBreaksAux]
  | cons t r ih =>
    intro idx last tempseq seqs htemp
    obtain ⟨a, as, rfl⟩ := List.exists_cons_of_ne_nil htemp
    by_cases ht : t < last
    · rw [tgLoop, if_pos ht, ih (idx + 1) t [idx] (seqs ++ [a :: as]) (by simp)]
      rw [specBreaksAux, if_pos ht]
      simp [List.filterMap_append]
    · rw [tgLoop, if_neg ht, ih (idx + 1) t ((a :: as) ++ [idx]) seqs (by simp)]
      rw [specBreaksAux, if_neg ht]
      simp [List.filterMap_append]

/-- C7 (amended): for every nonempty tof sequence whose first entry is a
valid TOF (at least `-1`, the loop's sentinel), `temperature_groups`
partitions the indices `0, …, n-1` in order into nonempty groups, and the
indices at which a group begins are exactly index 0 together with the
indices whose tof is strictly less than the immediately preceding tof
(`specBreaks`); an equal or larger tof continues the current group. -/
theorem temperature_groups_spec (tof : List ℚ) (hne : tof ≠ [])
    (hvalid : -1 ≤ tof.headI) :
    (temperature_groups tof).flatten = List.range tof.length ∧
    (∀ g ∈ temperature_groups tof, g ≠ []) ∧
    (temperature_groups tof).filterMap List.head? = 0 :: specBreaks tof := by
  obtain ⟨t, r, rfl⟩ := List.exists_cons_of_ne_nil hne
  have hnot : ¬ t < (-1 : ℚ) := not_lt.mpr (by simpa using hvalid)
  have hstep : temperature_groups (t :: r) = tgLoop r 1 t [0] [] := by
    rw [temperature_groups, tgLoop, if_neg hnot]
    rfl
  refine ⟨?_, ?_, ?_⟩
  · rw [temperature_groups, tgLoop_flatten, List.range_eq_range']
    simp [List.length_cons]
  · rw [hstep]
    exact tgLoop_ne_nil r 1 t [0] [] (by simp) (by simp)
  · rw [hstep, tgLoop_heads r 1 t [0] [] (by simp), specBreaks]
    simp

/-- C7 counterexample to the claim as stated ("for every tof sequence"):
on the sequence `[-2]` the first comparison `-2 < last_TOF = -1` fires,
so the code emits a spurious empty group, `[[], [0]]`.  No index of this
sequence has a predecessor with larger tof, so the rule of the claim
would give the single-group partition `[[0]]`: the output is not a
partition into groups begun at strict decreases. -/
theorem temperature_groups_counterexample :
    temperature_groups [(-2 : ℚ)] = [[], [0]] ∧
    ¬ (∀ g ∈ temperature_groups [(-2 : ℚ)], g ≠ []) := by
  constructor
  · decide
  · intro hall
    exact hall [] (by decide) rfl

/-- Witness for C7 at the spec's own example `[1,2,3,1,2,1]`, which the
code groups as `[[0,1,2],[3,4],[5]]`. -/
theorem temperature_groups_spec_witness :
    temperature_groups [(1 : ℚ), 2, 3, 1, 2, 1] = [[0, 1, 2], [3, 4], [5]] ∧
    (([(1 : ℚ), 2, 3, 1, 2, 1] ≠ []) ∧ -1 ≤ [(1 : ℚ), 2, 3, 1, 2, 1].headI) ∧
    ((temperature_groups [(1 : ℚ), 2, 3, 1, 2, 1]).flatten =
        List.range [(1 : ℚ), 2, 3, 1, 2, 1].length ∧
      (∀ g ∈ temperature_groups [(1 : ℚ), 2, 3, 1, 2, 1], g ≠ []) ∧
      (temperature_groups [(1 : ℚ), 2, 3, 1, 2, 1]).filterMap List.head? =
        0 :: specBreaks [(1 : ℚ), 2, 3, 1, 2, 1]) :=
  ⟨by decide, ⟨by decide, by decide⟩,
    temperature_groups_spec [(1 : ℚ), 2, 3, 1, 2, 1] (by decide) (by decide)⟩

/-- C8: for every double-Gaussian coefficient vector (length at least 6),
`d_peaks` is the absolute center difference, `position_1`/`position_2`
are the smaller/larger center (so `position_1 ≤ position_2`), all three
are invariant under exchanging which peak's parameters come first, while
`sigma_1`/`sigma_2` are read positionally from slots 4 and 5 and are not
sorted (after the exchange, `sigma_1` reads the other width). -/
theorem calc_double_gaussian_params_spec (coef : List ℚ)
    (h : 6 ≤ coef.length) :
    calc_double_gaussian_params coef "d_peaks" =
      .ok (some |coef.getD 2 0 - coef.getD 3 0|) ∧
    calc_double_gaussian_params coef "position_1" =
      .ok (some (min (coef.getD 2 0) (coef.getD 3 0))) ∧
    calc_double_gaussian_params coef "position_2" =
      .ok (some (max (coef.getD 2 0) (coef.getD 3 0))) ∧
    min (coef.getD 2 0) (coef.getD 3 0) ≤ max (coef.getD 2 0) (coef.getD 3 0) ∧
    calc_double_gaussian_params (swapPeaksCoef coef) "d_peaks" =
      calc_double_gaussian_params coef "d_peaks" ∧
    calc_double_gaussian_params (swapPeaksCoef coef) "position_1" =
      calc_double_gaussian_params coef "position_1" ∧
    calc_double_gaussian_params (swapPeaksCoef coef) "position_2" =
      calc_double_gaussian_params coef "position_2" ∧
    calc_double_gaussian_params coef "sigma_1" = .ok (some (coef.getD 4 0)) ∧
    calc_double_gaussian_params coef "sigma_2" = .ok (some (coef.getD 5 0)) ∧
    calc_double_gaussian_params (swapPeaksCoef coef) "sigma_1" =
      .ok (some (coef.getD 5 0)) := by
  match coef, h with
  | a :: b :: c :: d :: e :: f :: t, _ =>
    refine ⟨?_, ?_, ?_, min_le_max, ?_, ?_, ?_, ?_, ?_, ?_⟩ <;>
      simp [calc_double_gaussian_params, swapPeaksCoef, pyGet,
        List.getD_cons_succ, List.getD_cons_zero, abs_sub_comm, min_comm,
        max_comm, List.get, Except.bind, bind, pure, Except.pure]

/-- Witness for C8 at the coefficient vector `[1, 2, 3, 4, 5, 6]`. -/
theorem calc_double_gaussian_params_spec_witness :
    (6 ≤ ([(1 : ℚ), 2, 3, 4, 5, 6]).length) ∧
    (calc_double_gaussian_params [(1 : ℚ), 2, 3, 4, 5, 6] "d_peaks" =
        .ok (some |([(1 : ℚ), 2, 3, 4, 5, 6]).getD 2 0 -
          ([(1 : ℚ), 2, 3, 4, 5, 6]).getD 3 0|) ∧
      calc_double_gaussian_params [(1 : ℚ), 2, 3, 4, 5, 6] "position_1" =
        .ok (some (min (([(1 : ℚ), 2, 3, 4, 5, 6]).getD 2 0)
          (([(1 : ℚ), 2, 3, 4, 5, 6]).getD 3 0))) ∧
      calc_double_gaussian_params [(1 : ℚ), 2, 3, 4, 5, 6] "position_2" =
        .ok (some (max (([(1 : ℚ), 2, 3, 4, 5, 6]).getD 2 0)
          (([(1 : ℚ), 2, 3, 4, 5, 6]).getD 3 0))) ∧
      min (([(1 : ℚ), 2, 3, 4, 5, 6]).getD 2 0)
          (([(1 : ℚ), 2, 3, 4, 5, 6]).getD 3 0) ≤
        max (([(1 : ℚ), 2, 3, 4, 5, 6]).getD 2 0)
          (([(1 : ℚ), 2, 3, 4, 5, 6]).getD 3 0) ∧
      calc_double_gaussian_params (swapPeaksCoef [(1 : ℚ), 2, 3, 4, 5, 6])
          "d_peaks" =
        calc_double_gaussian_params [(1 : ℚ), 2, 3, 4, 5, 6] "d_peaks" ∧
      calc_double_gaussian_params (swapPeaksCoef [(1 : ℚ), 2, 3, 4, 5, 6])
          "position_1" =
        calc_double_gaussian_params [(1 : ℚ), 2, 3, 4, 5, 6] "position_1" ∧
      calc_double_gaussian_params (swapPeaksCoef [(1 : ℚ), 2, 3, 4, 5, 6])
          "position_2" =
        calc_double_gaussian_params [(1 : ℚ), 2, 3, 4, 5, 6] "position_2" ∧
      calc_double_gaussian_params [(1 : ℚ), 2, 3, 4, 5, 6] "sigma_1" =
        .ok (some (([(1 : ℚ), 2, 3, 4, 5, 6]).getD 4 0)) ∧
      calc_double_gaussian_params [(1 : ℚ), 2, 3, 4, 5, 6] "sigma_2" =
        .ok (some (([(1 : ℚ), 2, 3, 4, 5, 6]).getD 5 0)) ∧
      calc_double_gaussian_params (swapPeaksCoef [(1 : ℚ), 2, 3, 4, 5, 6])
          "sigma_1" =
        .ok (some (([(1 : ℚ), 2, 3, 4, 5, 6]).getD 5 0))) :=
  ⟨by decide, calc_double_gaussian_params_spec [(1 : ℚ), 2, 3, 4, 5, 6] (by decide)⟩

lemma exists_len5 (l : List ℚ) (h : l.length = 5) :
    ∃ a b c d e, l = [a, b, c, d, e] := by
  rcases l with _ | ⟨a, _ | ⟨b, _ | ⟨c, _ | ⟨d, _ | ⟨e, _ | ⟨f, t⟩⟩⟩⟩⟩⟩ <;>
    simp only [List.length_nil, List.length_cons] at h <;>
    first
      | omega
      | exact ⟨a, b, c, d, e, rfl⟩

lemma exists_len4 (l : List ℚ) (h : l.length = 4) :
    ∃ a b c d, l = [a, b, c, d] := by
  rcases l with _ | ⟨a, _ | ⟨b, _ | ⟨c, _ | ⟨d, _ | ⟨e, t⟩⟩⟩⟩⟩ <;>
    simp only [List.length_nil, List.length_cons] at h <;>
    first
      | omega
      | exact ⟨a, b, c, d, rfl⟩

lemma get_gaussian_fit_params_ok_axis1 (img : CloudImageData) (o : GaussOpts)
    (haxis : o.fit_axis = 1)
    (hx : coefLenOk o.linear_bias_switch img.fitX = true)
    (hz : coefLenOk o.linear_bias_switch img.fitZ = true) :
    ∃ p, get_gaussian_fit_params img o = .ok p := by
  obtain ⟨od, fx, fz, li, da, ac, sl, ps, mg, tx, ty⟩ := img
  obtain ⟨lin, offs, fax, pu⟩ := o
  simp only at haxis hx hz
  subst haxis
  cases lin with
  | false =>
    cases fx with
    | none =>
      cases fz with
      | none => cases pu <;> exact ⟨_, rfl⟩
      | some cz =>
        obtain ⟨a, b, c, d, rfl⟩ :=
          exists_len4 cz (by simpa [coefLenOk] using hz)
        cases pu <;> exact ⟨_, rfl⟩
    | some cx =>
      obtain ⟨a, b, c, d, rfl⟩ :=
        exists_len4 cx (by simpa [coefLenOk] using hx)
      cases fz with
      | none => cases pu <;> exact ⟨_, rfl⟩
      | some cz =>
        obtain ⟨a', b', c', d', rfl⟩ :=
          exists_len4 cz (by simpa [coefLenOk] using hz)
        cases pu <;> exact ⟨_, rfl⟩
  | true =>
    cases fx with
    | none =>
      cases fz with
      | none => cases pu <;> exact ⟨_, rfl⟩
      | some cz =>
        obtain ⟨a, b, c, d, e, rfl⟩ :=
          exists_len5 cz (by simpa [coefLenOk] using hz)
        cases pu <;> exact ⟨_, rfl⟩
    | some cx =>
      obtain ⟨a, b, c, d, e, rfl⟩ :=
        exists_len5 cx (by simpa [coefLenOk] using hx)
      cases fz with
      | none => cases pu <;> exact ⟨_, rfl⟩
      | some cz =>
        obtain ⟨a', b', c', d', e', rfl⟩ :=
          exists_len5 cz (by simpa [coefLenOk] using hz)
        cases pu <;> exact ⟨_, rfl⟩

/-- C2 (amended): with the default designated axis `fit_axis = 1`, a
per-image Gaussian-fit failure in either axis (or both) is contained:
the failed axis degrades to the `[0, 0, 0]` placeholder, a failed z-axis
offset read is caught by the `except IndexError` guard, and the whole
distribution build completes for every sequence of images and fit
outcomes.  (With `fit_axis = 0` this is false; see the counterexample.) -/
theorem fit_failure_contained_fit_axis1 (imgs : List CloudImageData)
    (o : GaussOpts) (haxis : o.fit_axis = 1)
    (hlen : ∀ img ∈ imgs, coefLenOk o.linear_bias_switch img.fitX = true ∧
      coefLenOk o.linear_bias_switch img.fitZ = true) :
    ∃ ps, initialize_gaussian_params imgs o = .ok ps := by
  induction imgs with
  | nil => exact ⟨[], rfl⟩
  | cons img rest ih =>
    obtain ⟨p, hp⟩ := get_gaussian_fit_params_ok_axis1 img o haxis
      (hlen img (List.mem_cons_self img rest)).1
      (hlen img (List.mem_cons_self img rest)).2
    obtain ⟨ps, hps⟩ := ih (fun i hi => hlen i (List.mem_cons_of_mem _ hi))
    exact ⟨p :: ps, by rw [initialize_gaussian_params, hp, hps]; rfl⟩

/-- C2 counterexample to the claim as stated: with `fit_axis = 0` a
failed x-axis fit leaves the `[0, 0, 0]` placeholder, and the unguarded
read `offset = coefs_x[3]` raises `IndexError`, which is not a
`FitError`, so the aggregation loop does not catch it: the one-image
build aborts instead of substituting the placeholder and continuing. -/
theorem fit_failure_aborts_fit_axis0 :
    initialize_gaussian_params
      [⟨[[1]], none, some [1, 2, 3, 4, 5], [[0]], [[0]], 1, 1, 1, 1, 0, 0⟩]
      ⟨true, true, 0, false⟩ = .error PyErr.indexError := by
  rfl

/-- Witness for C2 at a one-image list whose z-axis fit failed, with
`fit_axis = 1`: the build completes. -/
theorem fit_failure_contained_fit_axis1_witness :
    ((⟨true, true, 1, false⟩ : GaussOpts).fit_axis = 1) ∧
    (∀ img ∈ [(⟨[[1]], some [1, 2, 3, 4, 5], none, [[0]], [[0]],
        1, 1, 1, 1, 0, 0⟩ : CloudImageData)],
      coefLenOk (⟨true, true, 1, false⟩ : GaussOpts).linear_bias_switch
        img.fitX = true ∧
      coefLenOk (⟨true, true, 1, false⟩ : GaussOpts).linear_bias_switch
        img.fitZ = true) ∧
    ∃ ps, initialize_gaussian_params
      [(⟨[[1]], some [1, 2, 3, 4, 5], none, [[0]], [[0]],
        1, 1, 1, 1, 0, 0⟩ : CloudImageData)]
      ⟨true, true, 1, false⟩ = .ok ps :=
  ⟨rfl, by decide,
    fit_failure_contained_fit_axis1 _ _ rfl (by decide)⟩

/-- C6 (amended): for every OD map and every successful pair of axis
fits, the atom number is computed from the designated fit axis's offset
and slope, scaled by the calibration prefactor `A / s_lambda`
(cloud_image.py lines 373-379): with offset correction it is
`A/s_lambda * (sum(OD) - 0.5*slope*N^2 - offset*N)` where `N` is the
length of the designated axis's integrated profile, `offset` is slot 3 of
that axis's coefficients and `slope` slot 4 (or 0 for the no-bias
model); with offset correction disabled it is `A/s_lambda * sum(OD)`. -/
theorem atom_number_formula (img : CloudImageData) (o : GaussOpts)
    (cx cz : List ℚ) (hx : img.fitX = some cx) (hz : img.fitZ = some cz)
    (hlx : cx.length = if o.linear_bias_switch then 5 else 4)
    (hlz : cz.length = if o.linear_bias_switch then 5 else 4)
    (haxis : o.fit_axis = 0 ∨ o.fit_axis = 1) :
    ∃ p, get_gaussian_fit_params img o = .ok p ∧
      p.atom_number =
        (if o.offset_switch then
          img.A / img.s_lambda *
            (matSum img.od -
              (1 / 2) *
                (if o.linear_bias_switch then
                  (if o.fit_axis = 1 then cz else cx).getD 4 0
                else 0) *
                (((if o.fit_axis = 1 then (sumAxis1 img.od).length
                  else (sumAxis0 img.od).length) : ℚ)) ^ 2 -
              (if o.fit_axis = 1 then cz else cx).getD 3 0 *
                (((if o.fit_axis = 1 then (sumAxis1 img.od).length
                  else (sumAxis0 img.od).length) : ℚ)))
        else img.A / img.s_lambda * matSum img.od) := by
  obtain ⟨od, fx, fz, li, da, ac, sl, ps, mg, tx, ty⟩ := img
  obtain ⟨lin, offs, fax, pu⟩ := o
  simp only at hx hz hlx hlz haxis ⊢
  subst hx hz
  rcases haxis with haxis | haxis <;> subst haxis <;>
    cases lin with
    | false =>
      obtain ⟨a, b, c, d, rfl⟩ := exists_len4 cx (by simpa using hlx)
      obtain ⟨a', b', c', d', rfl⟩ := exists_len4 cz (by simpa using hlz)
      cases pu <;> exact ⟨_, rfl, rfl⟩
    | true =>
      obtain ⟨a, b, c, d, e, rfl⟩ := exists_len5 cx (by simpa using hlx)
      obtain ⟨a', b', c', d', e', rfl⟩ := exists_len5 cz (by simpa using hlz)
      cases pu <;> exact ⟨_, rfl, rfl⟩

/-- C6 counterexample to the claim as stated: the code multiplies by the
calibration prefactor `A / s_lambda`, so the returned atom number (here
`3 * 2 = 6`) differs from the claim's bare
`sum(OD) - 0.5*slope*N^2 - offset*N` (here `2`). -/
theorem atom_number_formula_counterexample :
    (get_gaussian_fit_params c6imgX ⟨true, true, 1, false⟩).map
        GaussParams.atom_number = .ok 6 ∧
    ((6 : ℚ) ≠ matSum c6imgX.od -
      (1 / 2) * 0 * ((1 : ℕ) : ℚ) ^ 2 - 0 * ((1 : ℕ) : ℚ)) := by
  constructor
  · show Except.map GaussParams.atom_number
      (get_gaussian_fit_params c6imgX ⟨true, true, 1, false⟩) = .ok 6
    norm_num [get_gaussian_fit_params, c6imgX, fitAxisResult, pyGet,
      sumAxis0, sumAxis1, matSum, matSub, distconv, Except.map,
      Except.bind, bind, pure, Except.pure, List.get]
  · norm_num [matSum, c6imgX]

/-- Witness for C6 at `c6imgW` with the designated axis `fit_axis = 1`. -/
theorem atom_number_formula_witness :
    c6imgW.fitX = some [1, 2, 3, 4, 5] ∧
    c6imgW.fitZ = some [5, 4, 3, 2, 1] ∧
    ([(1 : ℚ), 2, 3, 4, 5].length =
      if (⟨true, true, 1, false⟩ : GaussOpts).linear_bias_switch then 5 else 4) ∧
    ([(5 : ℚ), 4, 3, 2, 1].length =
      if (⟨true, true, 1, false⟩ : GaussOpts).linear_bias_switch then 5 else 4) ∧
    ((⟨true, true, 1, false⟩ : GaussOpts).fit_axis = 0 ∨
      (⟨true, true, 1, false⟩ : GaussOpts).fit_axis = 1) ∧
    (∃ p, get_gaussian_fit_params c6imgW ⟨true, true, 1, false⟩ = .ok p ∧
      p.atom_number =
        (if (⟨true, true, 1, false⟩ : GaussOpts).offset_switch then
          c6imgW.A / c6imgW.s_lambda *
            (matSum c6imgW.od -
              (1 / 2) *
                (if (⟨true, true, 1, false⟩ : GaussOpts).linear_bias_switch then
                  (if (⟨true, true, 1, false⟩ : GaussOpts).fit_axis = 1 then
                    [(5 : ℚ), 4, 3, 2, 1]
                  else [(1 : ℚ), 2, 3, 4, 5]).getD 4 0
                else 0) *
                (((if (⟨true, true, 1, false⟩ : GaussOpts).fit_axis = 1 then
                  (sumAxis1 c6imgW.od).length
                else (sumAxis0 c6imgW.od).length) : ℚ)) ^ 2 -
              (if (⟨true, true, 1, false⟩ : GaussOpts).fit_axis = 1 then
                [(5 : ℚ), 4, 3, 2, 1]
              else [(1 : ℚ), 2, 3, 4, 5]).getD 3 0 *
                (((if (⟨true, true, 1, false⟩ : GaussOpts).fit_axis = 1 then
                  (sumAxis1 c6imgW.od).length
                else (sumAxis0 c6imgW.od).length) : ℚ)))
        else c6imgW.A / c6imgW.s_lambda * matSum c6imgW.od)) :=
  ⟨rfl, rfl, rfl, rfl, Or.inr rfl,
    atom_number_formula c6imgW ⟨true, true, 1, false⟩
      [1, 2, 3, 4, 5] [5, 4, 3, 2, 1] rfl rfl rfl rfl (Or.inr rfl)⟩

lemma foldl_max_mem (qs : List ℚ) : ∀ q, qs.foldl max q ∈ q :: qs := by
  induction qs with
  | nil => intro q; simp
  | cons r rs ih =>
    intro q
    rw [List.foldl_cons]
    rcases List.mem_cons.mp (ih (max q r)) with h1 | h1
    · rcases max_choice q r with he | he <;> rw [h1, he] <;> simp
    · simp [h1]

lemma le_foldl_max_init (qs : List ℚ) : ∀ q, q ≤ qs.foldl max q := by
  induction qs with
  | nil => intro q; exact le_rfl
  | cons r rs ih =>
    intro q
    rw [List.foldl_cons]
    exact le_trans (le_max_left q r) (ih (max q r))

lemma le_foldl_max_mem (qs : List ℚ) : ∀ q, ∀ r ∈ qs, r ≤ qs.foldl max q := by
  induction qs with
  | nil => intro q r hr; exact absurd hr (List.not_mem_nil r)
  | cons r' rs ih =>
    intro q r hr
    rw [List.foldl_cons]
    rcases List.mem_cons.mp hr with h1 | h1
    · subst h1
      exact le_trans (le_max_right q r) (le_foldl_max_init rs (max q r))
    · exact ih (max q r') r h1

lemma cleanup_forall₂ (mp : FMat) (mx : ℚ) (S : List ℚ)
    (hmem : mx ∈ S) (hub : ∀ r ∈ S, r ≤ mx) :
    List.Forall₂ (List.Forall₂ (fun pre post =>
        (pre.isNan = true → post = FVal.fin 0) ∧
        (pre.isInf = true → ∃ x, post = FVal.fin x ∧ x ∈ S ∧
          ∀ r ∈ S, r ≤ x) ∧
        (pre.isNan = false → pre.isInf = false → post = pre)))
      mp ((nanZero mp).map (List.map (infClamp mx))) := by
  rw [nanZero, List.map_map, List.forall₂_map_right_iff, List.forall₂_same]
  intro row _
  simp only [Function.comp]
  rw [List.map_map, List.forall₂_map_right_iff, List.forall₂_same]
  intro v0 _
  rcases v0 with q0 | _ | _ | _
  · exact ⟨by simp [FVal.isNan], by simp [FVal.isInf],
      fun _ _ => by simp [nanZeroVal, infClamp, FVal.isNan, FVal.isInf]⟩
  · exact ⟨by simp [FVal.isNan],
      fun _ => ⟨mx, by simp [nanZeroVal, infClamp, FVal.isNan, FVal.isInf],
        hmem, hub⟩,
      by simp [FVal.isInf]⟩
  · exact ⟨by simp [FVal.isNan],
      fun _ => ⟨mx, by simp [nanZeroVal, infClamp, FVal.isNan, FVal.isInf],
        hmem, hub⟩,
      by simp [FVal.isInf]⟩
  · exact ⟨fun _ => by simp [nanZeroVal, infClamp, FVal.isNan, FVal.isInf],
      by simp [FVal.isInf], by simp [FVal.isNan]⟩

lemma odCleanup_spec (mp m : FMat) (hm : odCleanup mp = some m) :
    (∀ v ∈ m.flatten, v.isNan = false ∧ v.isInf = false) ∧
    List.Forall₂ (List.Forall₂ (fun pre post =>
        (pre.isNan = true → post = FVal.fin 0) ∧
        (pre.isInf = true → ∃ x, post = FVal.fin x ∧
          x ∈ finEntries (nanZero mp) ∧
          ∀ r ∈ finEntries (nanZero mp), r ≤ x) ∧
        (pre.isNan = false → pre.isInf = false → post = pre)))
      mp m := by
  cases hfe : finEntries (nanZero mp) with
  | nil =>
    rw [odCleanup] at hm
    simp only [hfe] at hm
    exact absurd hm (by simp)
  | cons q qs =>
    rw [odCleanup] at hm
    simp only [hfe] at hm
    rw [Option.some_inj] at hm
    subst hm
    have hmem : qs.foldl max q ∈ q :: qs := foldl_max_mem qs q
    have hub : ∀ r ∈ q :: qs, r ≤ qs.foldl max q := by
      intro r hr
      rcases List.mem_cons.mp hr with h1 | h1
      · rw [h1]; exact le_foldl_max_init qs q
      · exact le_foldl_max_mem qs q r h1
    constructor
    · intro v hv
      rw [List.mem_flatten] at hv
      obtain ⟨row, hrow, hv⟩ := hv
      rw [List.mem_map] at hrow
      obtain ⟨row1, hrow1, rfl⟩ := hrow
      rw [nanZero, List.mem_map] at hrow1
      obtain ⟨row0, _, rfl⟩ := hrow1
      rw [List.map_map, List.mem_map] at hv
      obtain ⟨v0, _, rfl⟩ := hv
      rcases v0 <;>
        simp [Function.comp, nanZeroVal, infClamp, FVal.isNan, FVal.isInf]
    · exact cleanup_forall₂ mp (qs.foldl max q) (q :: qs) hmem hub

/-- C4: for every frame whose fluctuation window has `light - dark`
strictly positive somewhere, and every option setting, the optical
density map returned by `get_od_image` contains no NaN and no infinite
entries; pointwise, a NaN of the raw ratio map is replaced by 0 and an
infinite entry is replaced by the maximum finite value present in the
(NaN-cleaned) map.  (When the map has no finite entry at all, the
`.max()` of an empty selection raises `ValueError` and no map is
returned; the claim speaks of the returned map.) -/
theorem get_od_image_no_nan_inf (φ : ℚ → ℚ) (f : ODFrame)
    (fs ts ab : Bool) (m : FMat)
    (hwin : ∃ x ∈ (matSub
        (slice2d f.light f.fluc_x1 f.fluc_x2 f.fluc_y1 f.fluc_y2)
        (slice2d f.dark f.fluc_x1 f.fluc_x2 f.fluc_y1 f.fluc_y2)).flatten,
      0 < x)
    (hm : get_od_image φ f fs ts ab = some m) :
    (∀ v ∈ m.flatten, v.isNan = false ∧ v.isInf = false) ∧
    List.Forall₂ (List.Forall₂ (fun pre post =>
        (pre.isNan = true → post = FVal.fin 0) ∧
        (pre.isInf = true → ∃ x, post = FVal.fin x ∧
          x ∈ finEntries (nanZero (odPre φ f fs ts ab)) ∧
          ∀ r ∈ finEntries (nanZero (odPre φ f fs ts ab)), r ≤ x) ∧
        (pre.isNan = false → pre.isInf = false → post = pre)))
      (odPre φ f fs ts ab) m :=
  odCleanup_spec (odPre φ f fs ts ab) m hm

/-- Witness for C4 at `c4frameW` (with fluctuation correction,
truncation and absolute value all enabled): the returned map is
`[[0]]`, free of NaN and Inf. -/
theorem get_od_image_no_nan_inf_witness :
    (∃ x ∈ (matSub
        (slice2d c4frameW.light c4frameW.fluc_x1 c4frameW.fluc_x2
          c4frameW.fluc_y1 c4frameW.fluc_y2)
        (slice2d c4frameW.dark c4frameW.fluc_x1 c4frameW.fluc_x2
          c4frameW.fluc_y1 c4frameW.fluc_y2)).flatten, 0 < x) ∧
    get_od_image c4phi c4frameW true true true = some [[FVal.fin 0]] ∧
    ((∀ v ∈ ([[FVal.fin 0]] : FMat).flatten,
        v.isNan = false ∧ v.isInf = false) ∧
      List.Forall₂ (List.Forall₂ (fun pre post =>
          (pre.isNan = true → post = FVal.fin 0) ∧
          (pre.isInf = true → ∃ x, post = FVal.fin x ∧
            x ∈ finEntries (nanZero (odPre c4phi c4frameW true true true)) ∧
            ∀ r ∈ finEntries (nanZero (odPre c4phi c4frameW true true true)),
              r ≤ x) ∧
          (pre.isNan = false → pre.isInf = false → post = pre)))
        (odPre c4phi c4frameW true true true) [[FVal.fin 0]]) := by
  have hwin : ∃ x ∈ (matSub
      (slice2d c4frameW.light c4frameW.fluc_x1 c4frameW.fluc_x2
        c4frameW.fluc_y1 c4frameW.fluc_y2)
      (slice2d c4frameW.dark c4frameW.fluc_x1 c4frameW.fluc_x2
        c4frameW.fluc_y1 c4frameW.fluc_y2)).flatten, 0 < x := by
    refine ⟨3, ?_, by norm_num⟩
    norm_num [matSub, slice2d, c4frameW]
  have hod : get_od_image c4phi c4frameW true true true =
      some [[FVal.fin 0]] := by
    norm_num [get_od_image, odPre, odCleanup, nanZero, nanZeroVal, infClamp,
      finEntries, set_fluc_corr, sliceMean, slice2d, matZip3, c4phi, c4frameW,
      FVal.sub, FVal.mul, FVal.div, FVal.negLog, FVal.vabs, FVal.isNan,
      FVal.isInf, List.zipWith3, List.filterMap_cons, List.filterMap_nil]
  exact ⟨hwin, hod,
    get_od_image_no_nan_inf c4phi c4frameW true true true [[FVal.fin 0]]
      hwin hod⟩

/-- C5: for every frame (planes `a`, `l`, `d`, fluctuation-window
contents `atomWin`, `lightWin`) and either setting of the fluctuation
switch, the optical density computed by the code — before NaN/Inf
cleanup and the optional absolute value — equals the spec's single
formula `-ln((atom - dark) / (correction_factor * light - dark))`
elementwise, with the correction factor 1 when the switch is off and the
window mean ratio when it is on. -/
theorem od_formula_matches_spec (fs : Bool) (a l d : RMat)
    (atomWin lightWin : List ℝ) :
    od_formula_code fs (fluc_cor_real atomWin lightWin) a l d =
      od_formula_spec (correction_factor_spec fs atomWin lightWin) a l d := by
  cases fs <;>
    simp [od_formula_code, od_formula_spec, correction_factor_spec, one_mul]

/-- C9 counterexample: at `b = 2`, `pcov[1][1] = 4` the code reports
`sigma = sqrt(4) = 2`, while the propagated one-sigma uncertainty of the
lifetime `1/b` is `sqrt(4)/b^2 = 1/2`; the reported value is the
uncertainty of the rate `b`, not of the lifetime. -/
theorem lifetime_sigma_not_propagated :
    (lifetime_reported c9popt c9pcov).2 = 2 ∧
    lifetime_sigma_spec c9popt c9pcov = 1 / 2 ∧
    (lifetime_reported c9popt c9pcov).2 ≠ lifetime_sigma_spec c9popt c9pcov := by
  have h4 : Real.sqrt 4 = 2 := by
    rw [show (4 : ℝ) = 2 ^ 2 by norm_num,
      Real.sqrt_sq (by norm_num : (0 : ℝ) ≤ 2)]
  refine ⟨?_, ?_, ?_⟩
  · simp [lifetime_reported, c9pcov, h4]
  · rw [lifetime_sigma_spec]
    simp only [c9popt, c9pcov]
    rw [h4]
    norm_num
  · rw [lifetime_reported, lifetime_sigma_spec]
    simp only [c9popt, c9pcov]
    rw [h4]
    norm_num

/-- C9 (amended): the lifetime regression reports the lifetime
`1 / popt[1]` together with `sqrt(pcov[1][1])`, the one-sigma
uncertainty of the decay rate `b` itself; the latter is `b^2` times the
propagated one-sigma uncertainty of the lifetime, so it is the
propagated lifetime uncertainty only when `b^2 = 1`. -/
theorem lifetime_reports_rate_sigma (popt : Fin 3 → ℝ)
    (pcov : Fin 3 → Fin 3 → ℝ) (hb : popt 1 ≠ 0) :
    (lifetime_reported popt pcov).1 = 1 / popt 1 ∧
    (lifetime_reported popt pcov).2 =
      (popt 1) ^ 2 * lifetime_sigma_spec popt pcov := by
  refine ⟨rfl, ?_⟩
  rw [lifetime_reported, lifetime_sigma_spec]
  field_simp

/-- Witness for C9 at `b = 2`, `pcov[1][1] = 4`. -/
theorem lifetime_reports_rate_sigma_witness :
    (c9popt 1 ≠ 0) ∧
    ((lifetime_reported c9popt c9pcov).1 = 1 / c9popt 1 ∧
      (lifetime_reported c9popt c9pcov).2 =
        (c9popt 1) ^ 2 * lifetime_sigma_spec c9popt c9pcov) :=
  ⟨by norm_num [c9popt],
    lifetime_reports_rate_sigma c9popt c9pcov (by norm_num [c9popt])⟩

end BECy
